import Mathlib

/-!
Shallow embedding of the portfolio client's list/detail navigation
(Photography.tsx), read-time estimation and category filtering
(Magazine.tsx), and admin CRUD controller (AdminPapers.tsx), together
with theorems settling the specification's claims about them.

JavaScript semantics that matter here are modelled explicitly:
the remainder operator on numbers truncates toward zero (Int.tmod),
String.prototype.split with a whitespace regex produces empty fields at
the boundaries, Array.prototype.findIndex returns -1 when no element
matches, and the truthiness of numbers treats 0 as false and of strings
treats the empty string as false.
-/

set_option maxRecDepth 20000
set_option maxHeartbeats 1000000

/-- Whitespace test matching the ASCII part of the JavaScript regex
class backslash-s: space, tab, newline, carriage return, vertical tab,
form feed. -/
def isWs (c : Char) : Bool :=
  c == ' ' || c == '\t' || c == '\n' || c == '\r' ||
    c == Char.ofNat 11 || c == Char.ofNat 12

/-- Prepend a character to the first field of a split result (used to
build the fields of a split front to back). -/
def consHead (c : Char) : List (List Char) → List (List Char)
  | [] => [[c]]
  | t :: ts => (c :: t) :: ts

/-- JavaScript s.split with a whitespace-run separator regex: the string
is cut at every maximal whitespace run, keeping the (possibly empty)
fields on both sides, so a leading or trailing run contributes an empty
field and the empty string yields one empty field.  The flag records
whether the previous character belonged to a separator run. -/
def splitWs (inSep : Bool) : List Char → List (List Char)
  | [] => [[]]
  | c :: cs =>
    if isWs c then
      if inSep then splitWs true cs else [] :: splitWs true cs
    else
      consHead c (splitWs false cs)

/-- Ceiling division on naturals, the value of Math.ceil on the exact
quotient of two nonnegative integers. -/
def ceilDiv (a b : Nat) : Nat := (a + b - 1) / b

/-- Magazine.tsx estimateReadTime: word count is the length of
content.split on a whitespace regex, minutes is the ceiling of the word
count over 200, rendered as a "min read" label. -/
def estimateReadTime (content : String) : String :=
  toString (ceilDiv (splitWs false content.data).length 200) ++ " min read"

/-- Count of maximal nonwhitespace runs (the whitespace-delimited tokens
of a string); the flag records whether the previous character was inside
a token. -/
def tokenCountGo (inTok : Bool) : List Char → Nat
  | [] => 0
  | c :: cs =>
    if isWs c then tokenCountGo false cs
    else (if inTok then 0 else 1) + tokenCountGo true cs

/-- Number of whitespace-delimited tokens in a character list. -/
def tokenCount (l : List Char) : Nat := tokenCountGo false l

/-- True when the list does not start with a whitespace character. -/
def noLeadWs : List Char → Bool
  | [] => true
  | c :: _ => !isWs c

/-- True when the list does not end with a whitespace character. -/
def noTrailWs : List Char → Bool
  | [] => true
  | [c] => !isWs c
  | _ :: c :: cs => noTrailWs (c :: cs)

/-- Read-time formula as the specification words it: the ceiling of the
number of whitespace-delimited tokens divided by 200, rendered as a
"min read" label.  Stated here only to compare against the source's
estimateReadTime. -/
def specReadTime (content : String) : String :=
  toString (ceilDiv (tokenCount content.data) 200) ++ " min read"

/-- A body of n single-character words separated by single spaces, used
as concrete input for the read-time theorems. -/
def bodyWords : Nat → List Char
  | 0 => []
  | 1 => ['w']
  | n + 2 => 'w' :: ' ' :: bodyWords (n + 1)

/-- Photography.tsx display photo record. -/
structure Photo where
  id : Int
  src : String
  title : String
  location : String
  year : String
  description : String
  camera : Option String := none
  lens : Option String := none
  settings : Option String := none
deriving DecidableEq

/-- Photography.tsx staticPhotos item 1. -/
def photo1 : Photo :=
  { id := 1, src := "/images/DSCF3114.JPG", title := "Winter Solitude",
    location := "Isle of Skye, Scotland", year := "2024",
    description := "Snow-covered peaks under a pale winter sky, where silence speaks louder than words." }

/-- Photography.tsx staticPhotos item 2. -/
def photo2 : Photo :=
  { id := 2, src := "/images/image7.jpg", title := "Edge of the World",
    location := "Seven Sisters, England", year := "2024",
    description := "Where chalk cliffs meet the sea, two figures walk toward the infinite horizon." }

/-- Photography.tsx staticPhotos item 3. -/
def photo3 : Photo :=
  { id := 3, src := "/images/image1.jpg", title := "Turquoise Waters",
    location := "Étretat, France", year := "2024",
    description := "A lone kayaker navigates the crystal waters beneath ancient limestone cliffs." }

/-- Photography.tsx staticPhotos item 4. -/
def photo4 : Photo :=
  { id := 4, src := "/images/image5.jpg", title := "Threshold",
    location := "York, England", year := "2024",
    description := "An elderly man pauses at the doorway, caught between shadow and light." }

/-- Photography.tsx staticPhotos item 5. -/
def photo5 : Photo :=
  { id := 5, src := "/images/image2.jpg", title := "Florentine Light",
    location := "Florence, Italy", year := "2024",
    description := "The Duomo's intricate facade glows in the golden hour, as crowds gather below." }

/-- Photography.tsx staticPhotos item 6. -/
def photo6 : Photo :=
  { id := 6, src := "/images/image3.jpg", title := "Roman Passage",
    location := "Rome, Italy", year := "2024",
    description := "The Pantheon stands eternal, as modern life flows past its ancient columns." }

/-- Photography.tsx fallback static photo collection. -/
def staticPhotos : List Photo := [photo1, photo2, photo3, photo4, photo5, photo6]

/-- JavaScript Array.prototype.findIndex restricted to the id-equality
predicate used in navigatePhoto: index of the first element with the
given id, as an option. -/
def jsFindIndexAux (target : Int) : List Photo → Option Nat
  | [] => none
  | p :: ps =>
    if p.id = target then some 0
    else (jsFindIndexAux target ps).map fun i => i + 1

/-- JavaScript findIndex result: the first matching index, or -1 when no
element matches. -/
def jsFindIndex (target : Int) (l : List Photo) : Int :=
  match jsFindIndexAux target l with
  | some i => (i : Int)
  | none => -1

/-- The two navigation directions of the lightbox. -/
inductive NavDirection where
  | prev
  | next
deriving DecidableEq

/-- Photography.tsx navigatePhoto: no-op on an empty selection;
otherwise recompute the selected id's index in the current collection
(-1 when absent), step it by +1 or -1+length under the JavaScript
truncating remainder, and select the element at the resulting index
(clearing the selection when the index is out of range, as indexing
then yields undefined). -/
def navigatePhoto (photos : List Photo) (direction : NavDirection)
    (selected : Option Photo) : Option Photo :=
  match selected with
  | none => none
  | some sel =>
    let currentIndex : Int := jsFindIndex sel.id photos
    let newIndex : Int :=
      match direction with
      | NavDirection.next => Int.tmod (currentIndex + 1) (photos.length : Int)
      | NavDirection.prev =>
          Int.tmod (currentIndex - 1 + (photos.length : Int)) (photos.length : Int)
    if newIndex < 0 then none else photos[newIndex.toNat]?

/-- Number of positions a navigation step advances by, as a forward
offset: next advances by 1, prev by length - 1. -/
def stepAmt : NavDirection → Nat → Nat
  | NavDirection.next, _ => 1
  | NavDirection.prev, n => n - 1

/-- A photo value whose id does not occur in the static collection, used
to exercise the id-absent navigation edge case. -/
def ghostPhoto : Photo :=
  { id := 99, src := "/images/ghost.jpg", title := "Ghost",
    location := "", year := "2024", description := "" }

/-- Database photo row as consumed by Photography.tsx (nullable columns
as options, the publication timestamp as epoch milliseconds). -/
structure DbPhoto where
  id : Int
  imageUrl : String
  title : String
  location : Option String
  publishedAt : Option Nat
  description : Option String
  camera : Option String
  lens : Option String
  settings : Option String
deriving DecidableEq

/-- JavaScript x || d for a nullable string x: the default is taken when
x is null or the empty string (which is falsy). -/
def jsOrStr (o : Option String) (d : String) : String :=
  match o with
  | none => d
  | some s => if s = "" then d else s

/-- JavaScript x || undefined for a nullable string x: null and the
empty string both collapse to undefined. -/
def jsOrUndef (o : Option String) : Option String :=
  match o with
  | none => none
  | some s => if s = "" then none else s

/-- Photography.tsx mapping of a database row to a display photo.  The
Date library is abstracted by yearFn (getFullYear of a timestamp,
rendered) and nowYear (getFullYear of new Date(), rendered); a zero
timestamp is falsy in JavaScript and falls back to nowYear. -/
def dbPhotoToPhoto (yearFn : Nat → String) (nowYear : String) (p : DbPhoto) : Photo :=
  { id := p.id
    src := p.imageUrl
    title := p.title
    location := jsOrStr p.location ""
    year := match p.publishedAt with
      | some t => if t = 0 then nowYear else yearFn t
      | none => nowYear
    description := jsOrStr p.description ""
    camera := jsOrUndef p.camera
    lens := jsOrUndef p.lens
    settings := jsOrUndef p.settings }

/-- Photography.tsx photos useMemo: the mapped remote rows when the
fetch produced a nonempty list, otherwise the static fallback
collection, substituted wholesale. -/
def photosView (yearFn : Nat → String) (nowYear : String)
    (dbPhotos : Option (List DbPhoto)) : List Photo :=
  match dbPhotos with
  | some l => if 0 < l.length then l.map (dbPhotoToPhoto yearFn nowYear) else staticPhotos
  | none => staticPhotos

/-- A concrete database photo row for witnesses. -/
def samplePhotoRow : DbPhoto :=
  { id := 7, imageUrl := "/images/new.jpg", title := "New", location := none,
    publishedAt := none, description := none, camera := none, lens := none,
    settings := none }

/-- Magazine.tsx display essay record. -/
structure Essay where
  id : Int
  title : String
  subtitle : String
  excerpt : String
  date : String
  readTime : String
  category : String
  coverImage : String
deriving DecidableEq

/-- Magazine.tsx staticEssays item 1. -/
def essay1 : Essay :=
  { id := 1, title := "The Art of Seeing", subtitle := "On Photography and Presence",
    excerpt := "In an age of infinite images, what does it mean to truly see? The camera becomes not just a tool for capture, but a lens through which we learn to inhabit the present moment more fully.",
    date := "December 2024", readTime := "12 min read", category := "Photography",
    coverImage := "/images/image7.jpg" }

/-- Magazine.tsx staticEssays item 2. -/
def essay2 : Essay :=
  { id := 2, title := "Wandering Through Time",
    subtitle := "Reflections on European Architecture",
    excerpt := "Standing before the Pantheon, one feels the weight of two millennia pressing down through those ancient columns. Architecture, at its finest, is frozen music—a symphony in stone that plays across centuries.",
    date := "November 2024", readTime := "15 min read", category := "Travel",
    coverImage := "/images/image3.jpg" }

/-- Magazine.tsx staticEssays item 3. -/
def essay3 : Essay :=
  { id := 3, title := "The Silence of Snow",
    subtitle := "A Winter Journey to the Scottish Highlands",
    excerpt := "There is a particular quality to highland silence in winter—not an absence of sound, but a presence of stillness so profound it becomes almost audible. The mountains hold their breath.",
    date := "October 2024", readTime := "10 min read", category := "Travel",
    coverImage := "/images/DSCF3114.JPG" }

/-- Magazine.tsx staticEssays item 4. -/
def essay4 : Essay :=
  { id := 4, title := "Portraits of Strangers",
    subtitle := "The Ethics and Aesthetics of Street Photography",
    excerpt := "Every photograph of a stranger is an act of both intimacy and intrusion. We capture moments that belong to others, freezing their private gestures into our public narratives.",
    date := "September 2024", readTime := "18 min read", category := "Photography",
    coverImage := "/images/image5.jpg" }

/-- Magazine.tsx fallback static essay collection. -/
def staticEssays : List Essay := [essay1, essay2, essay3, essay4]

/-- Database essay row as consumed by Magazine.tsx. -/
structure DbEssay where
  id : Int
  title : String
  subtitle : Option String
  excerpt : Option String
  publishedAt : Option Nat
  content : Option String
  category : Option String
  coverImageUrl : Option String
deriving DecidableEq

/-- Magazine.tsx mapping of a database row to a display essay.  Date
formatting is abstracted by fmtDate (toLocaleDateString of a timestamp)
and nowStr (toLocaleDateString of new Date()); zero timestamps and
empty content strings are falsy in JavaScript. -/
def dbEssayToEssay (fmtDate : Nat → String) (nowStr : String) (e : DbEssay) : Essay :=
  { id := e.id
    title := e.title
    subtitle := jsOrStr e.subtitle ""
    excerpt := jsOrStr e.excerpt ""
    date := match e.publishedAt with
      | some t => if t = 0 then nowStr else fmtDate t
      | none => nowStr
    readTime := match e.content with
      | some c => if c = "" then "5 min read" else estimateReadTime c
      | none => "5 min read"
    category := jsOrStr e.category "Uncategorized"
    coverImage := jsOrStr e.coverImageUrl "/images/image7.jpg" }

/-- Magazine.tsx essays useMemo: the mapped remote rows when the fetch
produced a nonempty list, otherwise the static fallback collection,
substituted wholesale. -/
def essaysView (fmtDate : Nat → String) (nowStr : String)
    (dbEssays : Option (List DbEssay)) : List Essay :=
  match dbEssays with
  | some l => if 0 < l.length then l.map (dbEssayToEssay fmtDate nowStr) else staticEssays
  | none => staticEssays

/-- A concrete database essay row for witnesses. -/
def sampleEssayRow : DbEssay :=
  { id := 9, title := "Fresh", subtitle := none, excerpt := none,
    publishedAt := none, content := none, category := none, coverImageUrl := none }

/-- First-occurrence deduplication with an accumulator of already seen
values: the order-preserving distinct list a JavaScript Set built from
an array iterates in. -/
def uniqueAux (seen : List String) : List String → List String
  | [] => []
  | c :: cs => if c ∈ seen then uniqueAux seen cs else c :: uniqueAux (c :: seen) cs

/-- Magazine.tsx categories useMemo: the literal "All" followed by the
distinct categories of the essays in first-occurrence order. -/
def categoriesOf (essays : List Essay) : List String :=
  "All" :: uniqueAux [] (essays.map Essay.category)

/-- Magazine.tsx filteredEssays: the whole collection for the "All"
category, otherwise the essays whose category equals the selected one. -/
def filteredEssays (essays : List Essay) (selectedCategory : String) : List Essay :=
  if selectedCategory = "All" then essays
  else essays.filter fun e => decide (e.category = selectedCategory)

/-- AdminPapers.tsx form draft for a paper record. -/
structure PaperFormData where
  title : String
  authors : String
  abstract : String
  journal : String
  year : Int
  volume : String
  issue : String
  pages : String
  doi : String
  pdfUrl : String
  pdfKey : String
  category : String
  tags : String
  citations : Int
  featured : Bool
  published : Bool
deriving DecidableEq

/-- AdminPapers.tsx defaultFormData, parameterized by the current year
(the module evaluates new Date().getFullYear() once). -/
def defaultFormData (currentYear : Int) : PaperFormData :=
  { title := "", authors := "", abstract := "", journal := "",
    year := currentYear, volume := "", issue := "", pages := "",
    doi := "", pdfUrl := "", pdfKey := "", category := "", tags := "",
    citations := 0, featured := false, published := false }

/-- Stored paper record, restricted to the fields the publish toggle
reads and writes (identifier, published flag, publication timestamp as
epoch milliseconds, plus the two mandatory text fields). -/
structure Paper where
  id : Int
  title : String
  authors : String
  published : Bool
  publishedAt : Option Nat
deriving DecidableEq

/-- The update payload submitted by the publish toggle: identifier, new
published flag, and the publication timestamp (none models the
JavaScript undefined). -/
structure PublishUpdatePayload where
  id : Int
  published : Bool
  publishedAt : Option Nat
deriving DecidableEq

/-- AdminPapers.tsx togglePublish: submits the negated published flag,
with the timestamp set to now when turning on and undefined when
turning off. -/
def togglePublishPayload (paper : Paper) (now : Nat) : PublishUpdatePayload :=
  { id := paper.id
    published := !paper.published
    publishedAt := if !paper.published then some now else none }

/-- Modelled from the spec: the server-side update handler behind
trpc.papers.update is not part of the repository sources; per section
4.2 an update stores the submitted fields, so toggling published
additionally sets the publication timestamp to now when turning on and
clears it when turning off. -/
def applyPublishUpdate (paper : Paper) (payload : PublishUpdatePayload) : Paper :=
  { paper with published := payload.published, publishedAt := payload.publishedAt }

/-- The data submitted by the create and update mutations: the form
draft spread together with the derived publishedAt field. -/
structure SubmitData where
  form : PaperFormData
  publishedAt : Option Nat
deriving DecidableEq

/-- Outcome of AdminPapers.tsx handleSubmit: a local validation toast
with no remote call, or a remote create call, or a remote update call. -/
inductive SubmitAction where
  | validationError (msg : String)
  | createCall (data : SubmitData)
  | updateCall (id : Int) (data : SubmitData)
deriving DecidableEq

/-- JavaScript String.prototype.trim on a character list: drop
whitespace from both ends. -/
def jsTrim (l : List Char) : List Char :=
  ((l.dropWhile isWs).reverse.dropWhile isWs).reverse

/-- AdminPapers.tsx handleSubmit: validate that title and authors are
nonempty after trimming (toasting and stopping otherwise), then build
the submit data with publishedAt set to now exactly when published is
on, and dispatch the update mutation when a truthy editing id is set
(0 is falsy in JavaScript) and the create mutation otherwise. -/
def handleSubmit (editingId : Option Int) (formData : PaperFormData)
    (now : Nat) : SubmitAction :=
  if jsTrim formData.title.data = [] then SubmitAction.validationError "请输入标题"
  else if jsTrim formData.authors.data = [] then SubmitAction.validationError "请输入作者"
  else
    let submitData : SubmitData :=
      { form := formData
        publishedAt := if formData.published then some now else none }
    match editingId with
    | some i =>
        if i = 0 then SubmitAction.createCall submitData
        else SubmitAction.updateCall i submitData
    | none => SubmitAction.createCall submitData

/-- Whether a submit outcome performs a remote call. -/
def isRemoteCall : SubmitAction → Bool
  | SubmitAction.validationError _ => false
  | SubmitAction.createCall _ => true
  | SubmitAction.updateCall _ _ => true

/-- A user-visible notification. -/
inductive Toast where
  | success (msg : String)
  | error (msg : String)
deriving DecidableEq

/-- AdminPapers.tsx component state relevant to the CRUD controller:
the two dialog flags, the pending editing and deletion identifiers, the
form draft, the notifications shown so far, and whether the listAll
query cache has been invalidated. -/
structure AdminState where
  isDialogOpen : Bool
  isDeleteDialogOpen : Bool
  editingId : Option Int
  deletingId : Option Int
  formData : PaperFormData
  toasts : List Toast
  listAllStale : Bool
deriving DecidableEq

/-- AdminPapers.tsx closeDialog: close the edit dialog, clear the
editing id and reset the draft to the defaults. -/
def closeDialog (currentYear : Int) (s : AdminState) : AdminState :=
  { s with
    isDialogOpen := false, editingId := none,
    formData := defaultFormData currentYear }

/-- AdminPapers.tsx createMutation onSuccess: invalidate the listAll
cache, toast success, and close the dialog. -/
def onCreateSuccess (currentYear : Int) (s : AdminState) : AdminState :=
  closeDialog currentYear
    { s with listAllStale := true, toasts := s.toasts ++ [Toast.success "论文创建成功"] }

/-- AdminPapers.tsx createMutation onError: toast the failure message;
nothing else changes. -/
def onCreateError (msg : String) (s : AdminState) : AdminState :=
  { s with toasts := s.toasts ++ [Toast.error ("创建失败: " ++ msg)] }

/-- AdminPapers.tsx updateMutation onSuccess: invalidate the listAll
cache, toast success, and close the dialog. -/
def onUpdateSuccess (currentYear : Int) (s : AdminState) : AdminState :=
  closeDialog currentYear
    { s with listAllStale := true, toasts := s.toasts ++ [Toast.success "论文更新成功"] }

/-- AdminPapers.tsx updateMutation onError: toast the failure message;
nothing else changes. -/
def onUpdateError (msg : String) (s : AdminState) : AdminState :=
  { s with toasts := s.toasts ++ [Toast.error ("更新失败: " ++ msg)] }

/-- A remote mutation call observable at the RPC boundary. -/
inductive RemoteCall where
  | paperDelete (id : Int)
deriving DecidableEq

/-- AdminPapers.tsx delete-intent button: record the pending deletion
id and open the confirmation dialog; no remote call is made. -/
def deleteIntentClick (paperId : Int) (s : AdminState) : AdminState × List RemoteCall :=
  ({ s with deletingId := some paperId, isDeleteDialogOpen := true }, [])

/-- AdminPapers.tsx handleDelete (the confirmation button handler):
issue the remote delete for the pending id when one is set and truthy
(0 is falsy in JavaScript), otherwise do nothing. -/
def handleDelete (s : AdminState) : AdminState × List RemoteCall :=
  match s.deletingId with
  | some i => if i = 0 then (s, []) else (s, [RemoteCall.paperDelete i])
  | none => (s, [])

/-- AdminPapers.tsx initial component state. -/
def initialAdminState (currentYear : Int) : AdminState :=
  { isDialogOpen := false, isDeleteDialogOpen := false, editingId := none,
    deletingId := none, formData := defaultFormData currentYear,
    toasts := [], listAllStale := false }

/-- A stored paper that is currently unpublished. -/
def samplePaperOff : Paper :=
  { id := 5, title := "Deep Learning", authors := "Zhang, X.",
    published := false, publishedAt := none }

/-- A stored paper that is currently published. -/
def samplePaperOn : Paper :=
  { id := 6, title := "Vision", authors := "Li, Y.",
    published := true, publishedAt := some 1700000000000 }

/-- A form draft passing validation. -/
def goodForm : PaperFormData :=
  { defaultFormData 2025 with title := "A Title", authors := "An Author" }

/-! ## Navigation lemmas -/

theorem jsFindIndexAux_eq_none {t : Int} {l : List Photo}
    (h : ∀ p ∈ l, p.id ≠ t) : jsFindIndexAux t l = none := by
  induction l with
  | nil => rfl
  | cons p ps ih =>
    have hp : p.id ≠ t := h p (List.mem_cons_self p ps)
    simp only [jsFindIndexAux, if_neg hp]
    rw [ih fun q hq => h q (List.mem_cons_of_mem p hq)]
    rfl

theorem jsFindIndexAux_get {l : List Photo} (hnd : (l.map Photo.id).Nodup)
    (i : Nat) (hi : i < l.length) :
    jsFindIndexAux (l.get ⟨i, hi⟩).id l = some i := by
  induction l generalizing i with
  | nil => exact absurd hi (by simp)
  | cons p ps ih =>
    rw [List.map_cons, List.nodup_cons] at hnd
    cases i with
    | zero => simp [jsFindIndexAux, List.get]
    | succ j =>
      have hj : j < ps.length := by simpa using hi
      have hget : (p :: ps).get ⟨j + 1, hi⟩ = ps.get ⟨j, hj⟩ := rfl
      have hne : ¬(p.id = (ps.get ⟨j, hj⟩).id) := by
        intro he
        exact hnd.1 (he ▸ List.mem_map_of_mem Photo.id (ps.get_mem j hj))
      rw [hget]
      simp only [jsFindIndexAux, if_neg hne, ih hnd.2 j hj]
      rfl

theorem jsFindIndex_get {l : List Photo} (hnd : (l.map Photo.id).Nodup)
    (i : Nat) (hi : i < l.length) :
    jsFindIndex (l.get ⟨i, hi⟩).id l = (i : Int) := by
  unfold jsFindIndex
  rw [jsFindIndexAux_get hnd i hi]

theorem get_congr_idx (l : List Photo) {a b : Nat} (ha : a < l.length)
    (hb : b < l.length) (h : a = b) : l.get ⟨a, ha⟩ = l.get ⟨b, hb⟩ := by
  subst h; rfl

theorem nav_get {photos : List Photo} (hnd : (photos.map Photo.id).Nodup)
    (d : NavDirection) (i : Nat) (hi : i < photos.length) :
    navigatePhoto photos d (some (photos.get ⟨i, hi⟩)) =
      some (photos.get ⟨(i + stepAmt d photos.length) % photos.length,
        Nat.mod_lt _ (by omega)⟩) := by
  have hN : 0 < photos.length := by omega
  cases d with
  | next =>
    simp only [navigatePhoto, jsFindIndex_get hnd i hi]
    have h12 : Int.tmod ((i : Int) + 1) ((photos.length : Nat) : Int)
        = (((i + 1) % photos.length : Nat) : Int) := by
      have h1 : ((i : Int) + 1) = ((i + 1 : Nat) : Int) := by push_cast; ring
      rw [h1]
      rfl
    simp only [h12]
    rw [if_neg (by omega)]
    have h3 : ((((i + 1) % photos.length : Nat) : Int)).toNat
        = (i + 1) % photos.length := by omega
    rw [h3]
    rw [List.getElem?_eq_getElem (Nat.mod_lt _ hN)]
    simp only [stepAmt, List.get_eq_getElem]
  | prev =>
    simp only [navigatePhoto, jsFindIndex_get hnd i hi]
    have h12 : Int.tmod ((i : Int) - 1 + ((photos.length : Nat) : Int))
        ((photos.length : Nat) : Int)
        = (((i + (photos.length - 1)) % photos.length : Nat) : Int) := by
      have h1 : ((i : Int) - 1 + (photos.length : Int))
          = ((i + (photos.length - 1) : Nat) : Int) := by omega
      rw [h1]
      rfl
    simp only [h12]
    rw [if_neg (by omega)]
    have h3 : ((((i + (photos.length - 1)) % photos.length : Nat) : Int)).toNat
        = (i + (photos.length - 1)) % photos.length := by omega
    rw [h3]
    rw [List.getElem?_eq_getElem (Nat.mod_lt _ hN)]
    simp only [stepAmt, List.get_eq_getElem]

theorem nav_iterate {photos : List Photo} (hnd : (photos.map Photo.id).Nodup)
    (d : NavDirection) :
    ∀ (k i : Nat) (hi : i < photos.length),
      (navigatePhoto photos d)^[k] (some (photos.get ⟨i, hi⟩)) =
        some (photos.get ⟨(i + k * stepAmt d photos.length) % photos.length,
          Nat.mod_lt _ (by omega)⟩) := by
  intro k
  induction k with
  | zero =>
    intro i hi
    simp only [Function.iterate_zero, id_eq, Option.some.injEq]
    exact (get_congr_idx photos _ _ (by simp [Nat.mod_eq_of_lt hi])).symm
  | succ k ih =>
    intro i hi
    rw [Function.iterate_succ_apply', ih i hi,
      nav_get hnd d _ (Nat.mod_lt _ (by omega))]
    refine congrArg some (get_congr_idx photos _ _ ?_)
    rw [Nat.mod_add_mod]
    ring_nf

/-- Claim C1: for a nonempty photo collection whose ids are unique (the
data-model invariant) and a selected photo belonging to it, next moves
the selection to index (index + 1) mod N and prev to index
(index - 1 + N) mod N; next applied N times and prev applied N times
each return to the original selection, and next followed by prev (and
vice versa) returns to the same selection. -/
theorem navigatePhoto_wraparound (photos : List Photo) (sel : Photo)
    (hne : photos ≠ []) (hnd : (photos.map Photo.id).Nodup)
    (hmem : sel ∈ photos) :
    (∀ (i : Nat) (hi : i < photos.length), photos.get ⟨i, hi⟩ = sel →
        navigatePhoto photos NavDirection.next (some sel)
            = photos[(i + 1) % photos.length]? ∧
        navigatePhoto photos NavDirection.prev (some sel)
            = photos[(i + photos.length - 1) % photos.length]?) ∧
    (navigatePhoto photos NavDirection.next)^[photos.length] (some sel) = some sel ∧
    (navigatePhoto photos NavDirection.prev)^[photos.length] (some sel) = some sel ∧
    navigatePhoto photos NavDirection.prev
      (navigatePhoto photos NavDirection.next (some sel)) = some sel ∧
    navigatePhoto photos NavDirection.next
      (navigatePhoto photos NavDirection.prev (some sel)) = some sel := by
  have hN : 0 < photos.length := List.length_pos.mpr hne
  obtain ⟨⟨i, hi⟩, hget⟩ := List.mem_iff_get.mp hmem
  refine ⟨?_, ?_, ?_, ?_, ?_⟩
  · intro j hj hgj
    have hij : j = i := by
      have h1 := jsFindIndex_get hnd j hj
      have h2 := jsFindIndex_get hnd i hi
      rw [hgj] at h1
      rw [hget] at h2
      omega
    subst hij
    constructor
    · rw [← hgj, nav_get hnd NavDirection.next j hj,
        List.getElem?_eq_getElem (Nat.mod_lt _ hN)]
      exact congrArg some (by simp [stepAmt, List.get_eq_getElem])
    · rw [← hgj, nav_get hnd NavDirection.prev j hj,
        List.getElem?_eq_getElem (Nat.mod_lt _ hN)]
      refine congrArg some ?_
      have hsum : j + (photos.length - 1) = j + photos.length - 1 := by omega
      rw [List.get_eq_getElem, stepAmt, hsum]
  · rw [← hget, nav_iterate hnd NavDirection.next photos.length i hi]
    exact congrArg some (get_congr_idx photos _ _ (by
      simp [stepAmt, Nat.add_mul_mod_self_left, Nat.mod_eq_of_lt hi]))
  · rw [← hget, nav_iterate hnd NavDirection.prev photos.length i hi]
    exact congrArg some (get_congr_idx photos _ _ (by
      simp [stepAmt, Nat.add_mul_mod_self_left, Nat.mod_eq_of_lt hi]))
  · rw [← hget, nav_get hnd NavDirection.next i hi,
      nav_get hnd NavDirection.prev _ (Nat.mod_lt _ hN)]
    refine congrArg some (get_congr_idx photos _ _ ?_)
    rw [Nat.mod_add_mod]
    have h1 : i + stepAmt NavDirection.next photos.length
        + stepAmt NavDirection.prev photos.length = i + photos.length := by
      simp [stepAmt]; omega
    rw [h1, Nat.add_mod_right, Nat.mod_eq_of_lt hi]
  · rw [← hget, nav_get hnd NavDirection.prev i hi,
      nav_get hnd NavDirection.next _ (Nat.mod_lt _ hN)]
    refine congrArg some (get_congr_idx photos _ _ ?_)
    rw [Nat.mod_add_mod]
    have h1 : i + stepAmt NavDirection.prev photos.length
        + stepAmt NavDirection.next photos.length = i + photos.length := by
      simp [stepAmt]; omega
    rw [h1, Nat.add_mod_right, Nat.mod_eq_of_lt hi]

/-- Witness for claim C1 at the static collection: next then prev from
the first static photo returns to it. -/
theorem navigatePhoto_wraparound_witness :
    navigatePhoto staticPhotos NavDirection.prev
      (navigatePhoto staticPhotos NavDirection.next (some photo1)) = some photo1 :=
  (navigatePhoto_wraparound staticPhotos photo1 (by decide) (by decide)
    (by decide)).2.2.2.1

/-- Claim C7 counterexample: in the two-element collection, with a
selected photo whose id 99 does not occur, the computed index is -1 but
next lands on the item at index 0, not at index N - 1 = 1. -/
theorem navigateAbsent_cex :
    jsFindIndex ghostPhoto.id [photo1, photo2] = -1 ∧
    navigatePhoto [photo1, photo2] NavDirection.next (some ghostPhoto) = some photo1 ∧
    navigatePhoto [photo1, photo2] NavDirection.next (some ghostPhoto)
      ≠ [photo1, photo2][1]? := by
  decide

/-- Claim C7 as amended: for a nonempty collection and a selected photo
whose id is absent, the computed index is -1, and the truncating
remainder of -1 + 1 = 0 makes next land on the item at index 0 (not at
index N - 1). -/
theorem navigateAbsent_amended (photos : List Photo) (sel : Photo)
    (hne : photos ≠ []) (habs : ∀ p ∈ photos, p.id ≠ sel.id) :
    jsFindIndex sel.id photos = -1 ∧
    navigatePhoto photos NavDirection.next (some sel) = photos[0]? := by
  have hfind : jsFindIndex sel.id photos = -1 := by
    unfold jsFindIndex
    rw [jsFindIndexAux_eq_none habs]
  refine ⟨hfind, ?_⟩
  have hN : 0 < photos.length := List.length_pos.mpr hne
  simp only [navigatePhoto, hfind]
  have h12 : Int.tmod (-1 + 1) ((photos.length : Nat) : Int)
      = ((0 : Nat) : Int) := rfl
  simp only [h12]
  rw [if_neg (by omega)]
  rfl

/-- Witness for the amended claim C7 at a concrete collection and
absent id. -/
theorem navigateAbsent_amended_witness :
    jsFindIndex ghostPhoto.id [photo1, photo2] = -1 ∧
    navigatePhoto [photo1, photo2] NavDirection.next (some ghostPhoto)
      = [photo1, photo2][0]? :=
  navigateAbsent_amended [photo1, photo2] ghostPhoto (by decide) (by decide)

/-! ## Read-time lemmas -/

theorem consHead_ne_nil (c : Char) (L : List (List Char)) : consHead c L ≠ [] := by
  cases L <;> simp [consHead]

theorem consHead_length (c : Char) (L : List (List Char)) (h : L ≠ []) :
    (consHead c L).length = L.length := by
  cases L with
  | nil => exact absurd rfl h
  | cons t ts => simp [consHead]

theorem splitWs_ne_nil (b : Bool) (l : List Char) : splitWs b l ≠ [] := by
  induction l generalizing b with
  | nil => simp [splitWs]
  | cons c cs ih =>
    by_cases h : isWs c = true
    · cases b
      · simpa [splitWs, h] using ih true
      · simpa [splitWs, h] using ih true
    · simp only [splitWs, h, Bool.false_eq_true, if_false]
      exact consHead_ne_nil c _

theorem splitWs_len_ws_false {c : Char} (cs : List Char) (h : isWs c = true) :
    (splitWs false (c :: cs)).length = (splitWs true cs).length + 1 := by
  simp [splitWs, h]

theorem splitWs_len_ws_true {c : Char} (cs : List Char) (h : isWs c = true) :
    (splitWs true (c :: cs)).length = (splitWs true cs).length := by
  simp [splitWs, h]

theorem splitWs_len_nonws (b : Bool) {c : Char} (cs : List Char)
    (h : isWs c = false) :
    (splitWs b (c :: cs)).length = (splitWs false cs).length := by
  simp [splitWs, h, consHead_length c _ (splitWs_ne_nil false cs)]

theorem splitWs_vs_tokenCount :
    ∀ l : List Char, noTrailWs l = true →
      (splitWs false l).length = tokenCountGo true l + 1 ∧
      (l ≠ [] → (splitWs true l).length = tokenCountGo false l) := by
  intro l
  induction l with
  | nil =>
    intro _
    exact ⟨by simp [splitWs, tokenCountGo], fun h => absurd rfl h⟩
  | cons c cs ih =>
    intro h
    cases cs with
    | nil =>
      have hc : isWs c = false := by
        simpa [noTrailWs] using h
      refine ⟨?_, fun _ => ?_⟩
      · rw [splitWs_len_nonws false [] hc]
        simp [splitWs, tokenCountGo, hc]
      · rw [splitWs_len_nonws true [] hc]
        simp [splitWs, tokenCountGo, hc]
    | cons c2 cs2 =>
      have h2 : noTrailWs (c2 :: cs2) = true := by
        simpa [noTrailWs] using h
      obtain ⟨ihA, ihB⟩ := ih h2
      have hne : (c2 :: cs2) ≠ ([] : List Char) := by simp
      by_cases hc : isWs c = true
      · refine ⟨?_, fun _ => ?_⟩
        · rw [splitWs_len_ws_false (c2 :: cs2) hc, ihB hne]
          simp [tokenCountGo, hc]
        · rw [splitWs_len_ws_true (c2 :: cs2) hc, ihB hne]
          simp [tokenCountGo, hc]
      · have hc' : isWs c = false := by simpa using hc
        refine ⟨?_, fun _ => ?_⟩
        · rw [splitWs_len_nonws false (c2 :: cs2) hc', ihA]
          simp [tokenCountGo, hc']
        · rw [splitWs_len_nonws true (c2 :: cs2) hc', ihA]
          simp [tokenCountGo, hc']
          omega

theorem wordCount_eq_tokenCount {l : List Char} (h0 : l ≠ [])
    (h1 : noLeadWs l = true) (h2 : noTrailWs l = true) :
    (splitWs false l).length = tokenCountGo false l := by
  obtain ⟨c, cs, rfl⟩ := List.exists_cons_of_ne_nil h0
  have hc : isWs c = false := by simpa [noLeadWs] using h1
  rw [(splitWs_vs_tokenCount (c :: cs) h2).1]
  simp [tokenCountGo, hc]
  omega

/-- Claim C8 counterexample: on the empty string the split produces one
empty field, so estimateReadTime yields "1 min read", not a "0 min"
result. -/
theorem estimateReadTime_empty_cex :
    estimateReadTime "" ≠ "0 min read" ∧ estimateReadTime "" = "1 min read" := by
  decide

/-- Claim C8 as amended: the read-time estimation applied to the empty
string produces "1 min read" (the split of the empty string yields a
single empty token, and the ceiling of 1/200 is 1); the function is
deterministic and total, and its result is always "n min read" for some
n at least 1, so a "0 min" result is impossible on any input. -/
theorem estimateReadTime_total :
    estimateReadTime "" = "1 min read" ∧
    ∀ s : String, ∃ n : Nat, 1 ≤ n ∧ estimateReadTime s = toString n ++ " min read" := by
  refine ⟨by decide, ?_⟩
  intro s
  refine ⟨ceilDiv (splitWs false s.data).length 200, ?_, rfl⟩
  have h := splitWs_ne_nil false s.data
  have hlen : 1 ≤ (splitWs false s.data).length := by
    cases hsp : splitWs false s.data with
    | nil => exact absurd hsp h
    | cons t ts => simp
  unfold ceilDiv
  omega

/-- Claim C9 counterexample: the single-space body is nonempty, has zero
whitespace-delimited tokens, and the spec formula gives "0 min read",
but estimateReadTime counts the two empty split fields and yields
"1 min read". -/
theorem estimateReadTime_spec_cex :
    estimateReadTime " " ≠ specReadTime " " ∧
    estimateReadTime " " = "1 min read" ∧
    specReadTime " " = "0 min read" := by
  decide

/-- Claim C9 as amended: for every nonempty body text that neither
starts nor ends with whitespace, estimateReadTime returns the ceiling
of the whitespace-delimited token count divided by 200, formatted as a
"min read" label; in particular a 400-word body yields "2 min read" and
a 1-word body yields "1 min read". -/
theorem estimateReadTime_ceilingTokens (s : String) (h0 : s.data ≠ [])
    (h1 : noLeadWs s.data = true) (h2 : noTrailWs s.data = true) :
    estimateReadTime s = toString (ceilDiv (tokenCount s.data) 200) ++ " min read" := by
  unfold estimateReadTime tokenCount
  rw [wordCount_eq_tokenCount h0 h1 h2]

/-- Witness for the amended claim C9: a 400-word body yields
"2 min read" and a 1-word body yields "1 min read". -/
theorem estimateReadTime_ceilingTokens_witness :
    estimateReadTime (String.mk (bodyWords 400)) = "2 min read" ∧
    estimateReadTime (String.mk (bodyWords 1)) = "1 min read" := by
  have h400 := estimateReadTime_ceilingTokens (String.mk (bodyWords 400))
    (by decide) (by decide) (by decide)
  have h1 := estimateReadTime_ceilingTokens (String.mk (bodyWords 1))
    (by decide) (by decide) (by decide)
  rw [h400, h1]
  constructor
  · decide
  · decide

/-- Claim C5: for any fetch outcome, an absent or empty remote
collection makes the displayed photos (and essays) exactly the built-in
fallback collection, substituted wholesale, while a nonempty remote
collection is displayed as exactly its transformed items, with no
fallback items. -/
theorem fallback_wholesale (yearFn : Nat → String) (nowYear : String)
    (fmtDate : Nat → String) (nowStr : String) :
    photosView yearFn nowYear none = staticPhotos ∧
    photosView yearFn nowYear (some []) = staticPhotos ∧
    (∀ l : List DbPhoto, l ≠ [] →
      photosView yearFn nowYear (some l) = l.map (dbPhotoToPhoto yearFn nowYear)) ∧
    essaysView fmtDate nowStr none = staticEssays ∧
    essaysView fmtDate nowStr (some []) = staticEssays ∧
    (∀ l : List DbEssay, l ≠ [] →
      essaysView fmtDate nowStr (some l) = l.map (dbEssayToEssay fmtDate nowStr)) := by
  refine ⟨rfl, rfl, ?_, rfl, rfl, ?_⟩
  · intro l hl
    cases l with
    | nil => exact absurd rfl hl
    | cons a as => simp [photosView]
  · intro l hl
    cases l with
    | nil => exact absurd rfl hl
    | cons a as => simp [essaysView]

/-- Witness for claim C5 at one-element remote collections. -/
theorem fallback_wholesale_witness :
    photosView (fun _ => "1970") "2025" (some [samplePhotoRow])
      = [dbPhotoToPhoto (fun _ => "1970") "2025" samplePhotoRow] ∧
    essaysView (fun _ => "January 1970") "October 2025" (some [sampleEssayRow])
      = [dbEssayToEssay (fun _ => "January 1970") "October 2025" sampleEssayRow] := by
  have h := fallback_wholesale (fun _ => "1970") "2025"
    (fun _ => "January 1970") "October 2025"
  constructor
  · rw [h.2.2.1 [samplePhotoRow] (by simp)]
    rfl
  · rw [h.2.2.2.2.2 [sampleEssayRow] (by simp)]
    rfl

/-! ## Category list lemmas -/

theorem mem_uniqueAux :
    ∀ (l seen : List String) (c : String),
      c ∈ uniqueAux seen l ↔ c ∈ l ∧ c ∉ seen := by
  intro l
  induction l with
  | nil => simp [uniqueAux]
  | cons a as ih =>
    intro seen c
    by_cases ha : a ∈ seen
    · rw [uniqueAux, if_pos ha, ih seen c]
      constructor
      · rintro ⟨hc1, hc2⟩
        exact ⟨List.mem_cons_of_mem a hc1, hc2⟩
      · rintro ⟨hc1, hc2⟩
        rcases List.mem_cons.mp hc1 with h | h
        · exact absurd (h ▸ ha) hc2
        · exact ⟨h, hc2⟩
    · rw [uniqueAux, if_neg ha]
      constructor
      · intro hc
        rcases List.mem_cons.mp hc with h | h
        · exact ⟨h ▸ List.mem_cons_self a as, h ▸ ha⟩
        · obtain ⟨hc1, hc2⟩ := (ih (a :: seen) c).mp h
          exact ⟨List.mem_cons_of_mem a hc1,
            fun hs => hc2 (List.mem_cons_of_mem a hs)⟩
      · rintro ⟨hc1, hc2⟩
        rcases List.mem_cons.mp hc1 with h | h
        · exact h ▸ List.mem_cons_self a _
        · by_cases hca : c = a
          · exact hca ▸ List.mem_cons_self a _
          · exact List.mem_cons_of_mem a ((ih (a :: seen) c).mpr
              ⟨h, fun hs => (List.mem_cons.mp hs).elim hca hc2⟩)

theorem nodup_uniqueAux :
    ∀ (l seen : List String), (uniqueAux seen l).Nodup := by
  intro l
  induction l with
  | nil => simp [uniqueAux]
  | cons a as ih =>
    intro seen
    by_cases ha : a ∈ seen
    · rw [uniqueAux, if_pos ha]
      exact ih seen
    · rw [uniqueAux, if_neg ha]
      refine List.nodup_cons.mpr ⟨?_, ih (a :: seen)⟩
      intro hmem
      exact ((mem_uniqueAux as (a :: seen) a).mp hmem).2 (List.mem_cons_self a seen)

theorem sublist_uniqueAux :
    ∀ (l seen : List String), (uniqueAux seen l).Sublist l := by
  intro l
  induction l with
  | nil => simp [uniqueAux]
  | cons a as ih =>
    intro seen
    by_cases ha : a ∈ seen
    · rw [uniqueAux, if_pos ha]
      exact (ih seen).cons a
    · rw [uniqueAux, if_neg ha]
      exact (ih (a :: seen)).cons₂ a

/-- Claim C10: filtering by "All" returns the whole essay collection;
filtering by any other category returns exactly the essays of that
category, in collection order (a sublist); and the selectable
categories start with "All", followed by a duplicate-free,
order-preserving enumeration of exactly the categories occurring in the
essays. -/
theorem categories_and_filter (essays : List Essay) (cat : String) :
    filteredEssays essays "All" = essays ∧
    (cat ≠ "All" →
      (filteredEssays essays cat).Sublist essays ∧
      ∀ e, e ∈ filteredEssays essays cat ↔ e ∈ essays ∧ e.category = cat) ∧
    (categoriesOf essays).head? = some "All" ∧
    (categoriesOf essays).tail.Nodup ∧
    (categoriesOf essays).tail.Sublist (essays.map Essay.category) ∧
    (∀ c, c ∈ (categoriesOf essays).tail ↔ ∃ e ∈ essays, e.category = c) := by
  refine ⟨?_, ?_, rfl, ?_, ?_, ?_⟩
  · simp [filteredEssays]
  · intro hcat
    rw [filteredEssays, if_neg hcat]
    refine ⟨List.filter_sublist essays, ?_⟩
    intro e
    rw [List.mem_filter]
    simp
  · exact nodup_uniqueAux _ []
  · exact sublist_uniqueAux _ []
  · intro c
    show c ∈ uniqueAux [] (essays.map Essay.category) ↔ _
    rw [mem_uniqueAux]
    simp [List.mem_map, eq_comm]

/-- Witness for claim C10 at the static essays and the "Photography"
category. -/
theorem categories_and_filter_witness :
    essay4 ∈ filteredEssays staticEssays "Photography" ∧
    essay2 ∉ filteredEssays staticEssays "Photography" := by
  have h := (categories_and_filter staticEssays "Photography").2.1 (by decide)
  constructor
  · exact (h.2 essay4).mpr ⟨by decide, by decide⟩
  · intro hmem
    exact absurd ((h.2 essay2).mp hmem).2 (by decide)

/-- Claim C2: the publish toggle on an unpublished paper submits an
update with published true and the publication timestamp set to now,
and on a published paper submits published false with the timestamp
cleared; after the (spec-modelled) server applies the payload, the
stored record carries the new flag and timestamp. -/
theorem togglePublish_timestamps (paper : Paper) (now : Nat) :
    (paper.published = false →
      (togglePublishPayload paper now).published = true ∧
      (togglePublishPayload paper now).publishedAt = some now ∧
      (applyPublishUpdate paper (togglePublishPayload paper now)).published = true ∧
      (applyPublishUpdate paper (togglePublishPayload paper now)).publishedAt
        = some now) ∧
    (paper.published = true →
      (togglePublishPayload paper now).published = false ∧
      (togglePublishPayload paper now).publishedAt = none ∧
      (applyPublishUpdate paper (togglePublishPayload paper now)).published = false ∧
      (applyPublishUpdate paper (togglePublishPayload paper now)).publishedAt
        = none) := by
  constructor
  · intro h
    simp [togglePublishPayload, applyPublishUpdate, h]
  · intro h
    simp [togglePublishPayload, applyPublishUpdate, h]

/-- Witness for claim C2 at concrete unpublished and published papers. -/
theorem togglePublish_timestamps_witness :
    (togglePublishPayload samplePaperOff 42).publishedAt = some 42 ∧
    (togglePublishPayload samplePaperOn 42).publishedAt = none := by
  refine ⟨((togglePublish_timestamps samplePaperOff 42).1 (by decide)).2.1, ?_⟩
  exact ((togglePublish_timestamps samplePaperOn 42).2 (by decide)).2.1

/-- Claim C3: when the title or the authors field trims to empty,
handleSubmit produces a local validation notification and performs no
remote call; when both trim nonempty, a remote create or update call is
performed. -/
theorem submit_validation (editingId : Option Int) (formData : PaperFormData)
    (now : Nat) :
    ((jsTrim formData.title.data = [] ∨ jsTrim formData.authors.data = []) →
      (∃ msg, handleSubmit editingId formData now = SubmitAction.validationError msg) ∧
      isRemoteCall (handleSubmit editingId formData now) = false) ∧
    ((jsTrim formData.title.data ≠ [] ∧ jsTrim formData.authors.data ≠ []) →
      isRemoteCall (handleSubmit editingId formData now) = true) := by
  by_cases h1 : jsTrim formData.title.data = []
  · refine ⟨fun _ => ?_, fun hc => absurd h1 hc.1⟩
    rw [handleSubmit, if_pos h1]
    exact ⟨⟨"请输入标题", rfl⟩, rfl⟩
  · by_cases h2 : jsTrim formData.authors.data = []
    · refine ⟨fun _ => ?_, fun hc => absurd h2 hc.2⟩
      rw [handleSubmit, if_neg h1, if_pos h2]
      exact ⟨⟨"请输入作者", rfl⟩, rfl⟩
    · refine ⟨fun hc => (hc.elim h1 h2).elim, fun _ => ?_⟩
      rw [handleSubmit, if_neg h1, if_neg h2]
      rcases editingId with _ | i
      · rfl
      · by_cases hi : i = 0
        · simp [hi, isRemoteCall]
        · simp [hi, isRemoteCall]

/-- Witness for claim C3: the default (empty-title) draft is rejected
locally with no remote call, and a draft with nonempty title and
authors produces a remote call. -/
theorem submit_validation_witness :
    isRemoteCall (handleSubmit none (defaultFormData 2025) 7) = false ∧
    isRemoteCall (handleSubmit (some 3) goodForm 7) = true := by
  refine ⟨((submit_validation none (defaultFormData 2025) 7).1 (Or.inl (by decide))).2, ?_⟩
  exact (submit_validation (some 3) goodForm 7).2 ⟨by decide, by decide⟩

/-- Claim C4: on create or update success the listAll cache is marked
stale, a success notification is appended, the dialog is closed, the
editing id is cleared and the draft is reset to the defaults; on
failure only an error notification carrying the failure's message is
appended, while the dialog flag, the draft, the editing id and the
cache flag are left unchanged. -/
theorem mutation_outcomes (currentYear : Int) (s : AdminState) (msg : String) :
    ((onCreateSuccess currentYear s).listAllStale = true ∧
     (onCreateSuccess currentYear s).toasts = s.toasts ++ [Toast.success "论文创建成功"] ∧
     (onCreateSuccess currentYear s).isDialogOpen = false ∧
     (onCreateSuccess currentYear s).editingId = none ∧
     (onCreateSuccess currentYear s).formData = defaultFormData currentYear) ∧
    ((onUpdateSuccess currentYear s).listAllStale = true ∧
     (onUpdateSuccess currentYear s).toasts = s.toasts ++ [Toast.success "论文更新成功"] ∧
     (onUpdateSuccess currentYear s).isDialogOpen = false ∧
     (onUpdateSuccess currentYear s).editingId = none ∧
     (onUpdateSuccess currentYear s).formData = defaultFormData currentYear) ∧
    ((onCreateError msg s).toasts = s.toasts ++ [Toast.error ("创建失败: " ++ msg)] ∧
     (onCreateError msg s).isDialogOpen = s.isDialogOpen ∧
     (onCreateError msg s).editingId = s.editingId ∧
     (onCreateError msg s).formData = s.formData ∧
     (onCreateError msg s).listAllStale = s.listAllStale) ∧
    ((onUpdateError msg s).toasts = s.toasts ++ [Toast.error ("更新失败: " ++ msg)] ∧
     (onUpdateError msg s).isDialogOpen = s.isDialogOpen ∧
     (onUpdateError msg s).editingId = s.editingId ∧
     (onUpdateError msg s).formData = s.formData ∧
     (onUpdateError msg s).listAllStale = s.listAllStale) :=
  ⟨⟨rfl, rfl, rfl, rfl, rfl⟩, ⟨rfl, rfl, rfl, rfl, rfl⟩,
   ⟨rfl, rfl, rfl, rfl, rfl⟩, ⟨rfl, rfl, rfl, rfl, rfl⟩⟩

/-- Claim C6: the delete-intent step only records the pending id and
opens the confirmation dialog, issuing no remote call; any remote
delete issued by the confirmation step carries a pending id that was
set, and the confirmation step with a truthy pending id issues exactly
that delete while with no pending id it issues nothing. -/
theorem delete_confirmation_gate (s : AdminState) (paperId : Int) :
    (deleteIntentClick paperId s).2 = [] ∧
    (deleteIntentClick paperId s).1.deletingId = some paperId ∧
    (deleteIntentClick paperId s).1.isDeleteDialogOpen = true ∧
    (∀ c, c ∈ (handleDelete s).2 →
      ∃ i, s.deletingId = some i ∧ c = RemoteCall.paperDelete i) ∧
    (∀ i : Int, i ≠ 0 →
      handleDelete { s with deletingId := some i }
        = ({ s with deletingId := some i }, [RemoteCall.paperDelete i])) ∧
    handleDelete { s with deletingId := none } = ({ s with deletingId := none }, []) := by
  refine ⟨rfl, rfl, rfl, ?_, ?_, rfl⟩
  · intro c hc
    rcases hd : s.deletingId with _ | i
    · rw [handleDelete, hd] at hc
      simp at hc
    · rw [handleDelete, hd] at hc
      by_cases hi : i = 0
      · simp [hi] at hc
      · simp [hi] at hc
        exact ⟨i, rfl, hc⟩
  · intro i hi
    rw [handleDelete]
    simp [hi]

/-- Witness for claim C6 at the initial state and a concrete paper id. -/
theorem delete_confirmation_gate_witness :
    (deleteIntentClick 5 (initialAdminState 2025)).2 = [] ∧
    handleDelete { initialAdminState 2025 with deletingId := some 5 }
      = ({ initialAdminState 2025 with deletingId := some 5 },
         [RemoteCall.paperDelete 5]) := by
  have h := delete_confirmation_gate (initialAdminState 2025) 5
  exact ⟨h.1, h.2.2.2.2.1 5 (by decide)⟩
